import Mathlib

set_option maxHeartbeats 1000000

/-!
Verification development for the `deserialize-swap-sdk` TypeScript repository.

The repository is a thin HTTP client (`SwapSDK` in `swapSDK.ts`) around a
remote swap-quoting service, plus a small error-translation helper
(`errors.ts`).  This file gives a shallow embedding of its five operations
(`swapTx`, `swapIx`, `tokenList`, `tokenPrice`, `simulateTransaction`) and the
helpers they use, and proves the spec's claims about them.

Modelling conventions:
* Each HTTP call is embedded as a pure function from an `HttpResponse β`
  (success flag, status text, and an optional parsed body, `none` standing
  for a body that fails JSON parsing) to `Except SdkError result`.
* JavaScript exceptions become `Except.error`; a thrown `Error` object is
  represented by an `SdkError` constructor recording the throw site.
* JSON fields that may be absent (`undefined`) are `Option` fields.
* JavaScript `Array.prototype.map` with a throwing callback is the
  left-to-right traversal `mapME` below (first throw aborts the whole map).
* The external `@solana/web3.js` primitives the SDK calls are modelled with
  executable definitions: `PublicKey` parsing is real base58 decoding with
  the 32-byte length check, `bs58.decode`/`bs58.encode` are real base58
  codecs, `Keypair.fromSecretKey` checks the 64-byte length, and
  `VersionedTransaction` is a carrier of its serialized bytes together with
  the list of keypairs applied to it by `sign` (the binary transaction
  format itself is owned by the external runtime and out of scope).
* JavaScript numbers are embedded as `ℚ` with `none : Option ℚ` for `NaN`;
  `Number(string)` is a decimal parser on the plain-decimal fragment.
-/

deriving instance DecidableEq for Except

/-- Left-to-right effectful map over a list in the `Except` monad, mirroring a
JavaScript `Array.prototype.map` whose callback may throw: the first failure
aborts the whole traversal. -/
def mapME {ε α β : Type} (f : α → Except ε β) : List α → Except ε (List β)
  | [] => Except.ok []
  | a :: t =>
    match f a with
    | Except.error e => Except.error e
    | Except.ok b =>
      match mapME f t with
      | Except.error e => Except.error e
      | Except.ok r => Except.ok (b :: r)

/-- Left-to-right map over a list in the `Option` monad. -/
def mapMO {α β : Type} (f : α → Option β) : List α → Option (List β)
  | [] => some []
  | a :: t =>
    match f a, mapMO f t with
    | some b, some r => some (b :: r)
    | _, _ => none

/-- Does the second character list start with the first one? -/
def listStartsWith : List Char → List Char → Bool
  | [], _ => true
  | _ :: _, [] => false
  | a :: as, b :: bs => a == b && listStartsWith as bs

/-- JavaScript `String.prototype.includes`, on character lists: the first list
occurs contiguously inside the second. -/
def listHasSub : List Char → List Char → Bool
  | needle, [] => listStartsWith needle []
  | needle, c :: t => listStartsWith needle (c :: t) || listHasSub needle t

/-- JavaScript `hay.includes(needle)` on strings. -/
def jsIncludes (hay needle : String) : Bool :=
  listHasSub needle.toList hay.toList

/-- Value of a big-endian digit string in base `b + 2`. -/
def digitsToNatB (b : Nat) (ds : List Nat) : Nat :=
  List.foldl (fun a d => a * (b + 2) + d) 0 ds

/-- Fuel-driven helper for `natToDigitsB`, structurally recursive on the fuel
so that it evaluates inside the kernel; any fuel of at least `n` computes the
full digit string of `n`. -/
def natToDigitsAux (b : Nat) : Nat → Nat → List Nat
  | 0, _ => []
  | _ + 1, 0 => []
  | fuel + 1, n + 1 => natToDigitsAux b fuel ((n + 1) / (b + 2)) ++ [(n + 1) % (b + 2)]

/-- Big-endian digit string of `n` in base `b + 2`; minimal, so there is no
leading zero digit and `0` is represented by the empty string. -/
def natToDigitsB (b n : Nat) : List Nat := natToDigitsAux b n n

/-- Index of a character in a list, or `none` when it does not occur. -/
def charIdx (c : Char) : List Char → Option Nat
  | [] => none
  | a :: t => if a = c then some 0 else Option.map (· + 1) (charIdx c t)

/-- The bs58 alphabet (no `0`, `O`, `I`, `l`). -/
def base58Alphabet : List Char :=
  ['1', '2', '3', '4', '5', '6', '7', '8', '9',
   'A', 'B', 'C', 'D', 'E', 'F', 'G', 'H', 'J', 'K', 'L', 'M', 'N',
   'P', 'Q', 'R', 'S', 'T', 'U', 'V', 'W', 'X', 'Y', 'Z',
   'a', 'b', 'c', 'd', 'e', 'f', 'g', 'h', 'i', 'j', 'k', 'm', 'n',
   'o', 'p', 'q', 'r', 's', 't', 'u', 'v', 'w', 'x', 'y', 'z']

/-- Digit value of a base58 character (`none` for characters outside the
alphabet, on which `bs58.decode` throws). -/
def base58DigitVal (c : Char) : Option Nat := charIdx c base58Alphabet

/-- Character for a base58 digit value (total, with an irrelevant default). -/
def base58DigitChar (d : Nat) : Char := base58Alphabet.getD d '1'

/-- `bs58.decode`: leading `'1'` characters become leading zero bytes, the
remaining digits are read as one base-58 big-endian number whose minimal
byte string follows.  `none` models the throw on a non-alphabet character. -/
def decodeBase58 (s : String) : Option (List Nat) :=
  match mapMO base58DigitVal s.toList with
  | none => none
  | some ds =>
    some (List.replicate (List.takeWhile (fun d => d == 0) ds).length 0 ++
      natToDigitsB 254 (digitsToNatB 56 (List.dropWhile (fun d => d == 0) ds)))

/-- `bs58.encode`: leading zero bytes become `'1'` characters, the remaining
bytes are one base-256 big-endian number re-expressed in base-58 digits. -/
def encodeBase58 (bytes : List Nat) : String :=
  String.mk (List.replicate (List.takeWhile (fun x => x == 0) bytes).length '1' ++
    List.map base58DigitChar (natToDigitsB 56 (digitsToNatB 254 (List.dropWhile (fun x => x == 0) bytes))))

/-- The standard base64 alphabet. -/
def base64Alphabet : List Char :=
  ['A', 'B', 'C', 'D', 'E', 'F', 'G', 'H', 'I', 'J', 'K', 'L', 'M',
   'N', 'O', 'P', 'Q', 'R', 'S', 'T', 'U', 'V', 'W', 'X', 'Y', 'Z',
   'a', 'b', 'c', 'd', 'e', 'f', 'g', 'h', 'i', 'j', 'k', 'l', 'm',
   'n', 'o', 'p', 'q', 'r', 's', 't', 'u', 'v', 'w', 'x', 'y', 'z',
   '0', '1', '2', '3', '4', '5', '6', '7', '8', '9', '+', '/']

/-- Digit value of a base64 character. -/
def base64DigitVal (c : Char) : Option Nat := charIdx c base64Alphabet

/-- Reassemble 6-bit base64 digit values into bytes; a trailing group of two
or three values yields one or two bytes, a lone trailing value is dropped. -/
def b64Bytes : List Nat → List Nat
  | a :: b :: c :: d :: rest =>
    (a * 4 + b / 16) :: ((b % 16) * 16 + c / 4) :: ((c % 4) * 64 + d) :: b64Bytes rest
  | [a, b] => [a * 4 + b / 16]
  | [a, b, c] => [a * 4 + b / 16, (b % 16) * 16 + c / 4]
  | _ => []

/-- Node's lenient `Buffer.from(s, "base64")`: characters outside the
alphabet (including padding) are skipped, the rest decodes; never throws. -/
def bufferFromBase64 (s : String) : List Nat :=
  b64Bytes (List.filterMap base64DigitVal s.toList)

/-- Modelled from the spec: strict base64 decoding of "base64 secret key
material" as the spec's words describe for the `signers` entries (padding-free
form); the source instead decodes these strings with `bs58.decode`.  Used only
to compare the spec's words against the source behaviour. -/
def decodeBase64Spec (s : String) : Option (List Nat) :=
  match mapMO base64DigitVal s.toList with
  | none => none
  | some vs => if vs.length % 4 = 0 then some (b64Bytes vs) else none

/-- Numeric value of a decimal digit string. -/
def decDigitsToNat (cs : List Char) : Nat :=
  List.foldl (fun a c => a * 10 + (c.toNat - 48)) 0 cs

/-- JavaScript `Number(string)` on the plain-decimal fragment: optional
integer part, optional single dot, optional fraction part; the empty string
coerces to `0`; anything else is `NaN`, modelled as `none`.  (Signs,
exponents and whitespace trimming are outside the fragment the SDK's inputs
use and are mapped to `none`.) -/
def parseDecimalQ (s : String) : Option ℚ :=
  let cs := s.toList
  if cs.isEmpty then some 0
  else
    let intPart := cs.takeWhile (fun c => c != '.')
    let rest := cs.dropWhile (fun c => c != '.')
    let fracPart := rest.drop 1
    if intPart.all Char.isDigit && fracPart.all Char.isDigit &&
        decide (0 < intPart.length + fracPart.length) then
      some ((decDigitsToNat intPart : ℚ) + (decDigitsToNat fracPart : ℚ) / ((10 : ℚ) ^ fracPart.length))
    else none

/-- A JavaScript primitive as it appears in a parsed JSON field that the SDK
feeds to `Number(...)`: a string, a number, or `undefined` for an absent
field. -/
inductive JsPrim where
  | str (s : String)
  | num (q : ℚ)
  | undef
deriving DecidableEq

/-- JavaScript `Number(v)`, with `none` for `NaN`. -/
def jsNumber : JsPrim → Option ℚ
  | .str s => parseDecimalQ s
  | .num q => some q
  | .undef => none

/-- `PublicKey` of the external blockchain library: carrier of the decoded
32 bytes. -/
structure PubKey where
  bytes : List Nat
deriving DecidableEq

/-- `PublicKey.toBase58` (also what `PublicKey.toString` returns). -/
def PubKey.toBase58 (k : PubKey) : String := encodeBase58 k.bytes

/-- `Keypair` of the external blockchain library: carrier of its 64-byte
secret key. -/
structure Keypair where
  secretKey : List Nat
deriving DecidableEq

/-- `VersionedTransaction` of the external blockchain library, modelled as a
carrier of its serialized bytes together with the keypairs that have been
applied to it by `sign`, in application order.  The binary layout is owned
by the external runtime and not re-implemented here. -/
structure VersionedTx where
  raw : List Nat
  signedWith : List Keypair
deriving DecidableEq

/-- A thrown JavaScript error, identified by its throw site in the SDK. -/
inductive SdkError where
  | apiError (statusText : String)
  | jsTypeError
  | invalidPublicKey (s : String)
  | invalidBase58 (s : String)
  | invalidSecretKey
  | jsonParseError
  | tooManyAccountLocks (message : String)
deriving DecidableEq

/-- The `message` property of the thrown `Error` object, for the two error
kinds whose message the source fixes (`API Error: ...` and the
`TooManyAccountsLockError` remediation text). -/
def SdkError.message : SdkError → String
  | .apiError st => "API Error: " ++ st
  | .tooManyAccountLocks m => m
  | _ => ""

/-- `new PublicKey(s)`: base58-decode and require exactly 32 bytes; throws
otherwise. -/
def parsePublicKey (s : String) : Except SdkError PubKey :=
  match decodeBase58 s with
  | none => Except.error (SdkError.invalidPublicKey s)
  | some b =>
    if b.length = 32 then Except.ok (PubKey.mk b)
    else Except.error (SdkError.invalidPublicKey s)

/-- `base58.decode(s)` as used in `swapTx`; throws on non-alphabet input. -/
def bs58Decode (s : String) : Except SdkError (List Nat) :=
  match decodeBase58 s with
  | none => Except.error (SdkError.invalidBase58 s)
  | some b => Except.ok b

/-- `Keypair.fromSecretKey`: requires a 64-byte secret key. -/
def Keypair.fromSecretKey (b : List Nat) : Except SdkError Keypair :=
  if b.length = 64 then Except.ok (Keypair.mk b)
  else Except.error SdkError.invalidSecretKey

/-- One entry of `data.signers.map((s) => Keypair.fromSecretKey(base58.decode(s)))`
in `swapTx`. -/
def decodeSigner (s : String) : Except SdkError Keypair :=
  match bs58Decode s with
  | Except.error e => Except.error e
  | Except.ok b => Keypair.fromSecretKey b

/-- `VersionedTransaction.deserialize`. -/
def VersionedTx.deserialize (b : List Nat) : VersionedTx := VersionedTx.mk b []

/-- `transaction.sign(signers)`: applies every supplied keypair, in order. -/
def VersionedTx.sign (tx : VersionedTx) (ks : List Keypair) : VersionedTx :=
  VersionedTx.mk tx.raw (tx.signedWith ++ ks)

/-- One raw route-plan hop as received on the wire. -/
structure RoutePlanEntry where
  tokenA : String
  tokenB : String
  dexId : String
deriving DecidableEq

/-- One converted route-plan hop (tokens as typed keys). -/
structure RoutePlanKeys where
  tokenA : PubKey
  tokenB : PubKey
  dexId : String
deriving DecidableEq

/-- One raw entry of an instruction's `keys` array. -/
structure RawKeyMeta where
  pubkey : String
  isSigner : Bool
  isWritable : Bool
deriving DecidableEq

/-- One raw API instruction. -/
structure RawInstruction where
  keys : Option (List RawKeyMeta)
  programId : String
  data : List Nat
deriving DecidableEq

/-- One raw instruction group of the `inXs` response field. -/
structure RawGroup where
  instructions : Option (List RawInstruction)
  cleanupInstructions : Option (List RawInstruction)
  signers : Option (List String)
deriving DecidableEq

/-- The parsed JSON body of a `/bestSwapRoute` response.  `Option` fields
model fields the service may omit (`undefined` on access). -/
structure BestSwapResponse where
  transaction : Option String
  amountOut : JsPrim
  amountOutUi : JsPrim
  routePlan : Option (List RoutePlanEntry)
  lookUpAccounts : Option (List String)
  signers : Option (List String)
  inXs : Option (List RawGroup)
deriving DecidableEq

/-- A converted entry of an instruction's `keys` array. -/
structure AccountMeta where
  pubkey : PubKey
  isSigner : Bool
  isWritable : Bool
deriving DecidableEq

/-- `TransactionInstruction` of the external blockchain library. -/
structure TransactionInstruction where
  keys : List AccountMeta
  programId : PubKey
  data : List Nat
deriving DecidableEq

/-- A converted instruction group (`InstructionGroup` in the source). -/
structure InstructionGroup where
  instructions : List TransactionInstruction
  cleanupInstructions : List TransactionInstruction
  signers : List String
deriving DecidableEq

/-- `SwapTxResult` of the source. -/
structure SwapTxResult where
  transaction : VersionedTx
  amountOut : Option ℚ
  amountOutUi : Option ℚ
  routePlan : List RoutePlanKeys
  lookupAccounts : List PubKey
  signers : List Keypair
deriving DecidableEq

/-- `SwapIxResult` of the source; the top-level `signers` field is passed
through without any defaulting, so it stays optional. -/
structure SwapIxResult where
  instructionGroups : List InstructionGroup
  amountOut : Option ℚ
  amountOutUi : Option ℚ
  routePlan : List RoutePlanKeys
  lookupAccounts : List PubKey
  signers : Option (List String)
deriving DecidableEq

/-- One raw token descriptor of the `/tokenList` response. -/
structure RawToken where
  name : String
  symbol : String
  address : String
  chainId : Nat
  decimals : Nat
  logoURL : String
deriving DecidableEq

/-- `Token` of the source (address parsed into a typed key). -/
structure Token where
  name : String
  symbol : String
  address : PubKey
  chainId : Nat
  decimals : Nat
  logoURL : String
deriving DecidableEq

/-- The parsed JSON body of a `/tokenPrice/...` response. -/
structure PriceBody where
  price : JsPrim
deriving DecidableEq

/-- An HTTP response as the SDK observes it: the `ok` flag, the status text,
and the parsed JSON body (`none` when the body does not parse as JSON). -/
structure HttpResponse (β : Type) where
  ok : Bool
  statusText : String
  body : Option β
deriving DecidableEq

/-- `callSwapEndpoint`: throw `API Error: <statusText>` on a non-ok status
(before the body is ever parsed), otherwise produce the parsed JSON body. -/
def callSwapEndpoint (resp : HttpResponse BestSwapResponse) : Except SdkError BestSwapResponse :=
  if resp.ok then
    match resp.body with
    | some data => Except.ok data
    | none => Except.error SdkError.jsonParseError
  else Except.error (SdkError.apiError resp.statusText)

/-- Conversion of one route-plan hop inside `swapTx`/`swapIx`. -/
def convertRoutePlan (rp : RoutePlanEntry) : Except SdkError RoutePlanKeys :=
  match parsePublicKey rp.tokenA with
  | Except.error e => Except.error e
  | Except.ok a =>
    match parsePublicKey rp.tokenB with
    | Except.error e => Except.error e
    | Except.ok b => Except.ok (RoutePlanKeys.mk a b rp.dexId)

/-- Conversion of one entry of an instruction's `keys` array. -/
def convertKeyMeta (k : RawKeyMeta) : Except SdkError AccountMeta :=
  match parsePublicKey k.pubkey with
  | Except.error e => Except.error e
  | Except.ok p => Except.ok (AccountMeta.mk p k.isSigner k.isWritable)

/-- `convertAPIInstruction` of the source. -/
def convertAPIInstruction (inst : RawInstruction) : Except SdkError TransactionInstruction :=
  match mapME convertKeyMeta (inst.keys.getD []) with
  | Except.error e => Except.error e
  | Except.ok ks =>
    match parsePublicKey inst.programId with
    | Except.error e => Except.error e
    | Except.ok pid => Except.ok (TransactionInstruction.mk ks pid inst.data)

/-- Conversion of one instruction group inside `swapIx`. -/
def convertGroup (g : RawGroup) : Except SdkError InstructionGroup :=
  match mapME convertAPIInstruction (g.instructions.getD []) with
  | Except.error e => Except.error e
  | Except.ok ins =>
    match mapME convertAPIInstruction (g.cleanupInstructions.getD []) with
    | Except.error e => Except.error e
    | Except.ok cls => Except.ok (InstructionGroup.mk ins cls (g.signers.getD []))

/-- The processing `swapTx` performs on the parsed body `data` after
`callSwapEndpoint` succeeds. -/
def swapTxBody (data : BestSwapResponse) : Except SdkError SwapTxResult :=
  match data.transaction with
    | none => Except.error SdkError.jsTypeError
    | some txStr =>
      let transaction := VersionedTx.deserialize (bufferFromBase64 txStr)
      match mapME parsePublicKey (data.lookUpAccounts.getD []) with
      | Except.error e => Except.error e
      | Except.ok lookupAccounts =>
        match mapME convertRoutePlan (data.routePlan.getD []) with
        | Except.error e => Except.error e
        | Except.ok routePlan =>
          match data.signers with
          | none => Except.error SdkError.jsTypeError
          | some signerStrs =>
            match mapME decodeSigner signerStrs with
            | Except.error e => Except.error e
            | Except.ok signers =>
              Except.ok (SwapTxResult.mk (transaction.sign signers)
                (jsNumber data.amountOut) (jsNumber data.amountOutUi)
                routePlan lookupAccounts signers)

/-- `swapTx` of the source, from the observed HTTP response onward. -/
def swapTx (resp : HttpResponse BestSwapResponse) : Except SdkError SwapTxResult :=
  match callSwapEndpoint resp with
  | Except.error e => Except.error e
  | Except.ok data => swapTxBody data

/-- The processing `swapIx` performs on the parsed body `data` after
`callSwapEndpoint` succeeds. -/
def swapIxBody (data : BestSwapResponse) : Except SdkError SwapIxResult :=
  match mapME parsePublicKey (data.lookUpAccounts.getD []) with
  | Except.error e => Except.error e
  | Except.ok lookupAccounts =>
    match mapME convertRoutePlan (data.routePlan.getD []) with
    | Except.error e => Except.error e
    | Except.ok routePlan =>
      match mapME convertGroup (data.inXs.getD []) with
      | Except.error e => Except.error e
      | Except.ok instructionGroups =>
        Except.ok (SwapIxResult.mk instructionGroups
          (jsNumber data.amountOut) (jsNumber data.amountOutUi)
          routePlan lookupAccounts data.signers)

/-- `swapIx` of the source, from the observed HTTP response onward. -/
def swapIx (resp : HttpResponse BestSwapResponse) : Except SdkError SwapIxResult :=
  match callSwapEndpoint resp with
  | Except.error e => Except.error e
  | Except.ok data => swapIxBody data

/-- Conversion of one token descriptor inside `tokenList`. -/
def convertToken (t : RawToken) : Except SdkError Token :=
  match parsePublicKey t.address with
  | Except.error e => Except.error e
  | Except.ok a => Except.ok (Token.mk t.name t.symbol a t.chainId t.decimals t.logoURL)

/-- `tokenList` of the source, from the observed HTTP response onward. -/
def tokenList (resp : HttpResponse (List RawToken)) : Except SdkError (List Token) :=
  if resp.ok then
    match resp.body with
    | none => Except.error SdkError.jsonParseError
    | some data => mapME convertToken data
  else Except.error (SdkError.apiError resp.statusText)

/-- `tokenPrice` of the source, from the observed HTTP response onward. -/
def tokenPrice (resp : HttpResponse PriceBody) : Except SdkError (Option ℚ) :=
  if resp.ok then
    match resp.body with
    | none => Except.error SdkError.jsonParseError
    | some data => Except.ok (jsNumber data.price)
  else Except.error (SdkError.apiError resp.statusText)

/-- The simulation error payload `value.err`: a string or an object, the
latter carrying its JavaScript `toString()` rendering. -/
inductive JsErr where
  | str (s : String)
  | obj (shown : String)
deriving DecidableEq

/-- JavaScript `e.toString()` on the error payload. -/
def JsErr.jsToString : JsErr → String
  | .str s => s
  | .obj shown => shown

/-- JavaScript truthiness of the error payload: an object is always truthy,
a string is truthy when non-empty. -/
def JsErr.truthy : JsErr → Bool
  | .str s => s != ""
  | .obj _ => true

/-- `SimulatedTransactionResponse` value as returned by the connection:
`err` is `none` for a null/absent error payload. -/
structure SimValue where
  err : Option JsErr
  logs : List String
deriving DecidableEq

/-- The fixed remediation message of `TooManyAccountsLockError`. -/
def tooManyLocksMessage : String :=
  "Too many account locks: consider using the option reduceToTwoHops in the options when getting the routes"

/-- `handleSimulationError` of `errors.ts`: throw the dedicated error when
the payload's string form contains the lock-limit marker, else do nothing. -/
def handleSimulationError (e : JsErr) : Except SdkError Unit :=
  if jsIncludes e.jsToString "TooManyAccountLocks" then
    Except.error (SdkError.tooManyAccountLocks tooManyLocksMessage)
  else Except.ok ()

/-- `simulateTransaction` of the source, from the connection's simulation
value onward: `if (value.err) handleSimulationError(value.err); return value`. -/
def simulateTransaction (value : SimValue) : Except SdkError SimValue :=
  match value.err with
  | none => Except.ok value
  | some e =>
    if e.truthy then
      match handleSimulationError e with
      | Except.error er => Except.error er
      | Except.ok _ => Except.ok value
    else Except.ok value

/-- Replace the `lookUpAccounts` field of a response body. -/
def setLookUpAccounts (bo : BestSwapResponse) (v : Option (List String)) : BestSwapResponse :=
  BestSwapResponse.mk bo.transaction bo.amountOut bo.amountOutUi bo.routePlan v bo.signers bo.inXs

/-- Replace the `routePlan` field of a response body. -/
def setRoutePlan (bo : BestSwapResponse) (v : Option (List RoutePlanEntry)) : BestSwapResponse :=
  BestSwapResponse.mk bo.transaction bo.amountOut bo.amountOutUi v bo.lookUpAccounts bo.signers bo.inXs

/-- Replace the `inXs` field of a response body. -/
def setInXs (bo : BestSwapResponse) (v : Option (List RawGroup)) : BestSwapResponse :=
  BestSwapResponse.mk bo.transaction bo.amountOut bo.amountOutUi bo.routePlan bo.lookUpAccounts bo.signers v

theorem mapME_ok_iff {ε α β : Type} (f : α → Except ε β) (l : List α) (r : List β) :
    mapME f l = Except.ok r ↔ List.Forall₂ (fun a b => f a = Except.ok b) l r := by
  induction l generalizing r with
  | nil =>
    simp only [mapME, List.forall₂_nil_left_iff, Except.ok.injEq]
    exact eq_comm
  | cons a t ih =>
    cases hfa : f a with
    | error e =>
      simp [mapME, hfa, List.forall₂_cons_left_iff]
    | ok b =>
      cases hmt : mapME f t with
      | error e =>
        simp only [mapME, hfa, hmt, List.forall₂_cons_left_iff]
        constructor
        · intro h; cases h
        · rintro ⟨b', l', _, htl, _⟩
          have h1 : mapME f t = Except.ok l' := (ih l').mpr htl
          rw [hmt] at h1
          cases h1
      | ok rt =>
        simp only [mapME, hfa, hmt, List.forall₂_cons_left_iff, Except.ok.injEq]
        constructor
        · rintro rfl
          exact ⟨b, rt, rfl, (ih rt).mp hmt, rfl⟩
        · rintro ⟨b', l', hb, htl, rfl⟩
          have h1 : mapME f t = Except.ok l' := (ih l').mpr htl
          rw [hmt] at h1
          injection h1 with h2
          subst h2
          simpa using hb

theorem mapMO_some_iff {α β : Type} (f : α → Option β) (l : List α) (r : List β) :
    mapMO f l = some r ↔ List.Forall₂ (fun a b => f a = some b) l r := by
  induction l generalizing r with
  | nil =>
    simp only [mapMO, List.forall₂_nil_left_iff, Option.some.injEq]
    exact eq_comm
  | cons a t ih =>
    cases hfa : f a with
    | none => simp [mapMO, hfa, List.forall₂_cons_left_iff]
    | some b =>
      cases hmt : mapMO f t with
      | none =>
        simp only [mapMO, hfa, hmt, List.forall₂_cons_left_iff]
        constructor
        · intro h; cases h
        · rintro ⟨b', l', _, htl, _⟩
          have h1 : mapMO f t = some l' := (ih l').mpr htl
          rw [hmt] at h1
          cases h1
      | some rt =>
        simp only [mapMO, hfa, hmt, List.forall₂_cons_left_iff, Option.some.injEq]
        constructor
        · rintro rfl
          exact ⟨b, rt, rfl, (ih rt).mp hmt, rfl⟩
        · rintro ⟨b', l', hb, htl, rfl⟩
          have h1 : mapMO f t = some l' := (ih l').mpr htl
          rw [hmt] at h1
          injection h1 with h2
          subst h2
          simpa using hb

theorem forall₂_mem_left {α β : Type} {R : α → β → Prop} {l : List α} {r : List β}
    (h : List.Forall₂ R l r) : ∀ a ∈ l, ∃ b, b ∈ r ∧ R a b := by
  induction h with
  | nil => intro a ha; cases ha
  | cons hab _ ih =>
    intro a ha
    rcases List.mem_cons.mp ha with rfl | ha'
    · exact ⟨_, List.mem_cons_self _ _, hab⟩
    · rcases ih a ha' with ⟨b, hb, hR⟩
      exact ⟨b, List.mem_cons_of_mem _ hb, hR⟩

theorem forall₂_mem_right {α β : Type} {R : α → β → Prop} {l : List α} {r : List β}
    (h : List.Forall₂ R l r) : ∀ b ∈ r, ∃ a, a ∈ l ∧ R a b := by
  induction h with
  | nil => intro b hb; cases hb
  | cons hab _ ih =>
    intro b hb
    rcases List.mem_cons.mp hb with rfl | hb'
    · exact ⟨_, List.mem_cons_self _ _, hab⟩
    · rcases ih b hb' with ⟨a, ha, hR⟩
      exact ⟨a, List.mem_cons_of_mem _ ha, hR⟩

theorem forall₂_split_right {α β : Type} {R : α → β → Prop} :
    ∀ (r1 r2 : List β) (l : List α), List.Forall₂ R l (r1 ++ r2) →
      ∃ l1 l2, l = l1 ++ l2 ∧ List.Forall₂ R l1 r1 ∧ List.Forall₂ R l2 r2 := by
  intro r1
  induction r1 with
  | nil =>
    intro r2 l h
    exact ⟨[], l, rfl, List.Forall₂.nil, by simpa using h⟩
  | cons b t ih =>
    intro r2 l h
    rcases List.forall₂_cons_right_iff.mp (by simpa using h) with ⟨a, l', hab, hl', rfl⟩
    rcases ih r2 l' hl' with ⟨l1, l2, rfl, h1, h2⟩
    exact ⟨a :: l1, l2, rfl, List.Forall₂.cons hab h1, h2⟩

theorem digitsToNatB_append_single (b : Nat) (xs : List Nat) (d : Nat) :
    digitsToNatB b (xs ++ [d]) = digitsToNatB b xs * (b + 2) + d := by
  simp [digitsToNatB, List.foldl_append]

theorem natToDigitsAux_fuel (b : Nat) :
    ∀ f1 f2 n, n ≤ f1 → n ≤ f2 → natToDigitsAux b f1 n = natToDigitsAux b f2 n := by
  intro f1
  induction f1 with
  | zero =>
    intro f2 n h1 _
    have hn : n = 0 := Nat.le_zero.mp h1
    subst hn
    cases f2 <;> rfl
  | succ f ih =>
    intro f2 n h1 h2
    cases n with
    | zero => cases f2 <;> rfl
    | succ m =>
      cases f2 with
      | zero => omega
      | succ f' =>
        have hdiv : (m + 1) / (b + 2) < m + 1 :=
          Nat.div_lt_self (Nat.succ_pos m) (by omega)
        have hq : (m + 1) / (b + 2) ≤ f := by omega
        have hq' : (m + 1) / (b + 2) ≤ f' := by omega
        show natToDigitsAux b f ((m + 1) / (b + 2)) ++ [(m + 1) % (b + 2)] =
          natToDigitsAux b f' ((m + 1) / (b + 2)) ++ [(m + 1) % (b + 2)]
        rw [ih f' _ hq hq']

theorem natToDigitsB_zero (b : Nat) : natToDigitsB b 0 = [] := rfl

theorem natToDigitsB_pos (b n : Nat) (h : n ≠ 0) :
    natToDigitsB b n = natToDigitsB b (n / (b + 2)) ++ [n % (b + 2)] := by
  cases n with
  | zero => exact absurd rfl h
  | succ m =>
    have hdiv : (m + 1) / (b + 2) < m + 1 :=
      Nat.div_lt_self (Nat.succ_pos m) (by omega)
    show natToDigitsAux b m ((m + 1) / (b + 2)) ++ [(m + 1) % (b + 2)] =
      natToDigitsAux b ((m + 1) / (b + 2)) ((m + 1) / (b + 2)) ++ [(m + 1) % (b + 2)]
    rw [natToDigitsAux_fuel b m ((m + 1) / (b + 2)) ((m + 1) / (b + 2)) (by omega) (by omega)]

theorem digitsToNatB_natToDigitsB (b n : Nat) :
    digitsToNatB b (natToDigitsB b n) = n := by
  induction n using Nat.strong_induction_on with
  | _ n ih =>
    match n with
    | 0 => simp [natToDigitsB, natToDigitsAux, digitsToNatB]
    | m + 1 =>
      rw [natToDigitsB_pos b (m + 1) (Nat.succ_ne_zero m), digitsToNatB_append_single,
        ih ((m + 1) / (b + 2)) (Nat.div_lt_self (Nat.succ_pos m) (by omega)),
        Nat.mul_comm]
      exact Nat.div_add_mod (m + 1) (b + 2)

theorem digitsToNatB_foldl_ge (b : Nat) (t : List Nat) :
    ∀ a : Nat, a ≤ List.foldl (fun a d => a * (b + 2) + d) a t := by
  induction t with
  | nil => intro a; exact Nat.le_refl a
  | cons x t ih =>
    intro a
    refine Nat.le_trans ?_ (ih (a * (b + 2) + x))
    calc a = a * 1 := (Nat.mul_one a).symm
    _ ≤ a * (b + 2) := Nat.mul_le_mul_left a (by omega)
    _ ≤ a * (b + 2) + x := Nat.le_add_right _ _

theorem digitsToNatB_cons_pos (b d : Nat) (t : List Nat) (hd : d ≠ 0) :
    0 < digitsToNatB b (d :: t) := by
  have h1 : d ≤ List.foldl (fun a d => a * (b + 2) + d) d t :=
    digitsToNatB_foldl_ge b t d
  have h2 : digitsToNatB b (d :: t) = List.foldl (fun a d => a * (b + 2) + d) d t := by
    simp [digitsToNatB]
  omega

theorem natToDigitsB_eq_nil_iff (b n : Nat) : natToDigitsB b n = [] ↔ n = 0 := by
  cases n with
  | zero => simp [natToDigitsB, natToDigitsAux]
  | succ m =>
    rw [natToDigitsB_pos b (m + 1) (Nat.succ_ne_zero m)]
    simp

theorem natToDigitsB_head_ne_zero (b : Nat) (n : Nat) :
    (natToDigitsB b n).head? ≠ some 0 := by
  induction n using Nat.strong_induction_on with
  | _ n ih =>
    match n with
    | 0 => simp [natToDigitsB, natToDigitsAux]
    | m + 1 =>
      rw [natToDigitsB_pos b (m + 1) (Nat.succ_ne_zero m)]
      cases hx : natToDigitsB b ((m + 1) / (b + 2)) with
      | nil =>
        have hq : (m + 1) / (b + 2) = 0 := (natToDigitsB_eq_nil_iff b _).mp hx
        have hlt : m + 1 < b + 2 := (Nat.div_eq_zero_iff (by omega)).mp hq
        simp only [List.nil_append, List.head?_cons, ne_eq, Option.some.injEq]
        rw [Nat.mod_eq_of_lt hlt]
        omega
      | cons h t =>
        have := ih ((m + 1) / (b + 2)) (Nat.div_lt_self (Nat.succ_pos m) (by omega))
        rw [hx] at this
        simpa using this

theorem natToDigitsB_digitsToNatB (b : Nat) (ds : List Nat) :
    (∀ d ∈ ds, d < b + 2) → ds.head? ≠ some 0 →
      natToDigitsB b (digitsToNatB b ds) = ds := by
  induction ds using List.reverseRecOn with
  | nil => intro _ _; simp [digitsToNatB, natToDigitsB, natToDigitsAux]
  | append_singleton xs d ih =>
    intro hlt hh
    rw [digitsToNatB_append_single]
    by_cases hq : digitsToNatB b xs * (b + 2) + d = 0
    · have hd0 : d = 0 := by omega
      have h1 : digitsToNatB b xs * (b + 2) = 0 := by omega
      have h2 : digitsToNatB b xs = 0 := by
        rcases Nat.mul_eq_zero.mp h1 with h | h
        · exact h
        · omega
      cases xs with
      | nil =>
        exfalso
        apply hh
        simp [hd0]
      | cons x t =>
        exfalso
        have hx : x ≠ 0 := by
          intro hx0
          apply hh
          simp [hx0]
        have := digitsToNatB_cons_pos b x t hx
        omega
    · have hd : d < b + 2 := hlt d (by simp)
      have hdiv : (digitsToNatB b xs * (b + 2) + d) / (b + 2) = digitsToNatB b xs := by
        rw [Nat.mul_comm, Nat.mul_add_div (by omega), Nat.div_eq_of_lt hd, Nat.add_zero]
      have hmod : (digitsToNatB b xs * (b + 2) + d) % (b + 2) = d := by
        rw [Nat.mul_comm, Nat.mul_add_mod, Nat.mod_eq_of_lt hd]
      rw [natToDigitsB_pos b _ hq, hdiv, hmod]
      have hxs : natToDigitsB b (digitsToNatB b xs) = xs := by
        apply ih
        · intro x hx
          exact hlt x (List.mem_append_left _ hx)
        · cases xs with
          | nil => simp
          | cons x t =>
            intro hx0
            apply hh
            simpa using hx0
      rw [hxs]

theorem listStartsWith_append (n rest : List Char) :
    listStartsWith n (n ++ rest) = true := by
  induction n with
  | nil => rfl
  | cons a t ih => simp [listStartsWith, ih]

theorem listHasSub_append (p n rest : List Char) :
    listHasSub n (p ++ n ++ rest) = true := by
  induction p with
  | nil =>
    simp only [List.nil_append]
    cases h : n ++ rest with
    | nil =>
      have hn : n = [] := (List.append_eq_nil.mp h).1
      subst hn
      rfl
    | cons c t =>
      have hs : listStartsWith n (c :: t) = true := by
        rw [← h]
        exact listStartsWith_append n rest
      simp [listHasSub, hs]
  | cons c p ih =>
    have hcons : (c :: p) ++ n ++ rest = c :: (p ++ n ++ rest) := by simp
    rw [hcons]
    simp only [listHasSub, Bool.or_eq_true]
    right
    exact ih

theorem jsIncludes_of_append (a b : String) : jsIncludes (a ++ b) b = true := by
  have h : (a ++ b).toList = a.toList ++ b.toList := by
    simp [String.toList, String.data_append]
  rw [jsIncludes, h]
  have := listHasSub_append a.toList b.toList []
  simpa using this

theorem charIdx_lt (c : Char) (l : List Char) (i : Nat) :
    charIdx c l = some i → i < l.length := by
  induction l generalizing i with
  | nil => intro h; cases h
  | cons a t ih =>
    intro h
    rw [charIdx] at h
    split at h
    · injection h with h'
      rw [← h']
      simp
    · cases hj : charIdx c t with
      | none => rw [hj] at h; cases h
      | some j =>
        rw [hj] at h
        injection h with h'
        have h2 : j + 1 = i := h'
        have h3 := ih j hj
        simp only [List.length_cons]
        omega

theorem charIdx_getD (c : Char) (l : List Char) (i : Nat) :
    charIdx c l = some i → l.getD i '1' = c := by
  induction l generalizing i with
  | nil => intro h; cases h
  | cons a t ih =>
    intro h
    rw [charIdx] at h
    split at h
    · injection h with h'
      rw [← h']
      simpa using (by assumption : a = c)
    · cases hj : charIdx c t with
      | none => rw [hj] at h; cases h
      | some j =>
        rw [hj] at h
        injection h with h'
        have h2 : j + 1 = i := h'
        rw [← h2]
        simpa using ih j hj

theorem base58DigitVal_lt (c : Char) (d : Nat) (h : base58DigitVal c = some d) :
    d < 58 := by
  have := charIdx_lt c base58Alphabet d h
  simpa [base58Alphabet] using this

theorem base58DigitVal_char (c : Char) (d : Nat) (h : base58DigitVal c = some d) :
    base58DigitChar d = c :=
  charIdx_getD c base58Alphabet d h

theorem base58DigitVal_zero (c : Char) (h : base58DigitVal c = some 0) : c = '1' := by
  have := base58DigitVal_char c 0 h
  simpa [base58DigitChar, base58Alphabet] using this.symm

theorem takeWhile_zero_replicate (ds : List Nat) :
    List.takeWhile (fun d => d == 0) ds =
      List.replicate (List.takeWhile (fun d => d == 0) ds).length 0 := by
  induction ds with
  | nil => rfl
  | cons d t ih =>
    by_cases hd : d = 0
    · subst hd
      have h0 : List.takeWhile (fun d => d == 0) ((0 : Nat) :: t) =
          0 :: List.takeWhile (fun d => d == 0) t := rfl
      rw [h0, List.length_cons, List.replicate_succ]
      exact congrArg (fun l => 0 :: l) ih
    · have hf : ((d == 0) : Bool) = false := by simpa using hd
      have h0 : List.takeWhile (fun d => d == 0) (d :: t) = [] :=
        List.takeWhile_cons_of_neg (by simp [hf])
      rw [h0]
      rfl

theorem dropWhile_zero_head (ds : List Nat) :
    (List.dropWhile (fun d => d == 0) ds).head? ≠ some 0 := by
  induction ds with
  | nil => simp [List.dropWhile]
  | cons d t ih =>
    by_cases hd : d = 0
    · subst hd
      have h0 : List.dropWhile (fun d => d == 0) ((0 : Nat) :: t) =
          List.dropWhile (fun d => d == 0) t := rfl
      rw [h0]
      exact ih
    · have hf : ((d == 0) : Bool) = false := by simpa using hd
      have h0 : List.dropWhile (fun d => d == 0) (d :: t) = d :: t :=
        List.dropWhile_cons_of_neg (by simp [hf])
      rw [h0]
      simpa using hd

theorem takeWhile_zero_of_head (D : List Nat) (hD : D.head? ≠ some 0) :
    List.takeWhile (fun d => d == 0) D = [] := by
  cases D with
  | nil => rfl
  | cons d t =>
    have hd : d ≠ 0 := by
      intro h0
      exact hD (by simp [h0])
    exact List.takeWhile_cons_of_neg (by simpa using hd)

theorem dropWhile_zero_of_head (D : List Nat) (hD : D.head? ≠ some 0) :
    List.dropWhile (fun d => d == 0) D = D := by
  cases D with
  | nil => rfl
  | cons d t =>
    have hd : d ≠ 0 := by
      intro h0
      exact hD (by simp [h0])
    exact List.dropWhile_cons_of_neg (by simpa using hd)

theorem takeWhile_zero_replicate_append (z : Nat) (D : List Nat) (hD : D.head? ≠ some 0) :
    List.takeWhile (fun d => d == 0) (List.replicate z 0 ++ D) = List.replicate z 0 := by
  induction z with
  | zero => simpa using takeWhile_zero_of_head D hD
  | succ n ih =>
    rw [List.replicate_succ, List.cons_append]
    have h0 : List.takeWhile (fun d => d == 0) ((0 : Nat) :: (List.replicate n 0 ++ D)) =
        0 :: List.takeWhile (fun d => d == 0) (List.replicate n 0 ++ D) := rfl
    rw [h0, ih, ← List.replicate_succ]

theorem dropWhile_zero_replicate_append (z : Nat) (D : List Nat) (hD : D.head? ≠ some 0) :
    List.dropWhile (fun d => d == 0) (List.replicate z 0 ++ D) = D := by
  induction z with
  | zero => simpa using dropWhile_zero_of_head D hD
  | succ n ih =>
    rw [List.replicate_succ, List.cons_append]
    have h0 : List.dropWhile (fun d => d == 0) ((0 : Nat) :: (List.replicate n 0 ++ D)) =
        List.dropWhile (fun d => d == 0) (List.replicate n 0 ++ D) := rfl
    rw [h0, ih]

theorem stringMk_toList (s : String) : String.mk s.toList = s := rfl

theorem forall₂_base58_map (l : List Char) (rest : List Nat)
    (h : List.Forall₂ (fun c d => base58DigitVal c = some d) l rest) :
    l = List.map base58DigitChar rest := by
  induction h with
  | nil => rfl
  | cons hab htl ih =>
    simp only [List.map_cons]
    rw [base58DigitVal_char _ _ hab, ← ih]

theorem forall₂_base58_replicate (l : List Char) (z : Nat)
    (h : List.Forall₂ (fun c d => base58DigitVal c = some d) l (List.replicate z 0)) :
    l = List.replicate z '1' := by
  induction z generalizing l with
  | zero =>
    have h0 : List.Forall₂ (fun c d => base58DigitVal c = some d) l [] := by simpa using h
    rw [List.forall₂_nil_right_iff.mp h0]
    rfl
  | succ n ih =>
    rw [List.replicate_succ] at h
    rcases List.forall₂_cons_right_iff.mp h with ⟨c, l', hc, hl', rfl⟩
    rw [List.replicate_succ, base58DigitVal_zero c hc, ih l' hl']

/-- Base58 is canonical: any string that `bs58.decode` accepts is recovered
exactly by `bs58.encode` of the decoded bytes. -/
theorem encodeBase58_decodeBase58 (s : String) (bytes : List Nat)
    (h : decodeBase58 s = some bytes) : encodeBase58 bytes = s := by
  rw [decodeBase58] at h
  cases hm : mapMO base58DigitVal s.toList with
  | none => rw [hm] at h; cases h
  | some ds =>
    rw [hm] at h
    injection h with hb
    have F : List.Forall₂ (fun c d => base58DigitVal c = some d) s.toList ds :=
      (mapMO_some_iff _ _ _).mp hm
    have hrhead : (List.dropWhile (fun d => d == 0) ds).head? ≠ some 0 :=
      dropWhile_zero_head ds
    have hbound : ∀ d ∈ List.dropWhile (fun d => d == 0) ds, d < 56 + 2 := by
      intro d hd
      have hd2 : d ∈ ds := (List.dropWhile_sublist _).subset hd
      rcases forall₂_mem_right F d hd2 with ⟨c, _, hc⟩
      have := base58DigitVal_lt c d hc
      omega
    have hDhead :
        (natToDigitsB 254 (digitsToNatB 56 (List.dropWhile (fun d => d == 0) ds))).head? ≠
          some 0 :=
      natToDigitsB_head_ne_zero 254 _
    rw [← hb, encodeBase58,
      takeWhile_zero_replicate_append _ _ hDhead,
      dropWhile_zero_replicate_append _ _ hDhead,
      List.length_replicate,
      digitsToNatB_natToDigitsB 254 _,
      natToDigitsB_digitsToNatB 56 _ hbound hrhead]
    have hds : ds = List.replicate (List.takeWhile (fun d => d == 0) ds).length 0 ++
        List.dropWhile (fun d => d == 0) ds := by
      have h1 := takeWhile_zero_replicate ds
      rw [← h1, List.takeWhile_append_dropWhile]
    rw [hds] at F
    rcases forall₂_split_right _ _ _ F with ⟨l1, l2, hsplit, h1, h2⟩
    rw [← forall₂_base58_replicate l1 _ h1, ← forall₂_base58_map l2 _ h2, ← hsplit,
      stringMk_toList]

/-- A string accepted by `new PublicKey(...)` is recovered exactly by
`toBase58` of the parsed key. -/
theorem parsePublicKey_toBase58 (s : String) (k : PubKey)
    (h : parsePublicKey s = Except.ok k) : k.toBase58 = s := by
  rw [parsePublicKey] at h
  split at h
  · cases h
  · rename_i b heq
    split at h
    · injection h with h'
      rw [← h', PubKey.toBase58]
      exact encodeBase58_decodeBase58 s b heq
    · cases h

theorem mapME_ok_length {ε α β : Type} (f : α → Except ε β) (l : List α) (r : List β)
    (h : mapME f l = Except.ok r) : r.length = l.length :=
  (((mapME_ok_iff f l r).mp h).length_eq).symm

theorem mapME_ok_of_mem {ε α β : Type} (f : α → Except ε β) (l : List α) (r : List β)
    (h : mapME f l = Except.ok r) (a : α) (ha : a ∈ l) : ∃ b, f a = Except.ok b := by
  rcases forall₂_mem_left ((mapME_ok_iff f l r).mp h) a ha with ⟨b, _, hb⟩
  exact ⟨b, hb⟩

theorem swapTxBody_ok_inv (bo : BestSwapResponse) (r : SwapTxResult)
    (h : swapTxBody bo = Except.ok r) :
    ∃ ts l, bo.transaction = some ts ∧ bo.signers = some l ∧
      mapME parsePublicKey (bo.lookUpAccounts.getD []) = Except.ok r.lookupAccounts ∧
      mapME convertRoutePlan (bo.routePlan.getD []) = Except.ok r.routePlan ∧
      mapME decodeSigner l = Except.ok r.signers ∧
      r.transaction = (VersionedTx.deserialize (bufferFromBase64 ts)).sign r.signers ∧
      r.amountOut = jsNumber bo.amountOut ∧ r.amountOutUi = jsNumber bo.amountOutUi := by
  simp only [swapTxBody] at h
  split at h
  · cases h
  · rename_i ts hts
    split at h
    · cases h
    · rename_i la hla
      split at h
      · cases h
      · rename_i rp hrp
        split at h
        · cases h
        · rename_i l hsg
          split at h
          · cases h
          · rename_i ks hks
            injection h with h'
            subst h'
            exact ⟨ts, l, hts, hsg, hla, hrp, hks, rfl, rfl, rfl⟩

theorem swapTx_ok_inv (st : String) (bo : BestSwapResponse) (r : SwapTxResult)
    (h : swapTx (HttpResponse.mk true st (some bo)) = Except.ok r) :
    ∃ ts l, bo.transaction = some ts ∧ bo.signers = some l ∧
      mapME parsePublicKey (bo.lookUpAccounts.getD []) = Except.ok r.lookupAccounts ∧
      mapME convertRoutePlan (bo.routePlan.getD []) = Except.ok r.routePlan ∧
      mapME decodeSigner l = Except.ok r.signers ∧
      r.transaction = (VersionedTx.deserialize (bufferFromBase64 ts)).sign r.signers ∧
      r.amountOut = jsNumber bo.amountOut ∧ r.amountOutUi = jsNumber bo.amountOutUi :=
  swapTxBody_ok_inv bo r h

theorem swapIxBody_ok_inv (bo : BestSwapResponse) (r : SwapIxResult)
    (h : swapIxBody bo = Except.ok r) :
    mapME parsePublicKey (bo.lookUpAccounts.getD []) = Except.ok r.lookupAccounts ∧
    mapME convertRoutePlan (bo.routePlan.getD []) = Except.ok r.routePlan ∧
    mapME convertGroup (bo.inXs.getD []) = Except.ok r.instructionGroups ∧
    r.signers = bo.signers ∧
    r.amountOut = jsNumber bo.amountOut ∧ r.amountOutUi = jsNumber bo.amountOutUi := by
  simp only [swapIxBody] at h
  split at h
  · cases h
  · rename_i la hla
    split at h
    · cases h
    · rename_i rp hrp
      split at h
      · cases h
      · rename_i ig hig
        injection h with h'
        subst h'
        exact ⟨hla, hrp, hig, rfl, rfl, rfl⟩

theorem swapIx_ok_inv (st : String) (bo : BestSwapResponse) (r : SwapIxResult)
    (h : swapIx (HttpResponse.mk true st (some bo)) = Except.ok r) :
    mapME parsePublicKey (bo.lookUpAccounts.getD []) = Except.ok r.lookupAccounts ∧
    mapME convertRoutePlan (bo.routePlan.getD []) = Except.ok r.routePlan ∧
    mapME convertGroup (bo.inXs.getD []) = Except.ok r.instructionGroups ∧
    r.signers = bo.signers ∧
    r.amountOut = jsNumber bo.amountOut ∧ r.amountOutUi = jsNumber bo.amountOutUi :=
  swapIxBody_ok_inv bo r h

theorem convertRoutePlan_ok_inv (rp : RoutePlanEntry) (rk : RoutePlanKeys)
    (h : convertRoutePlan rp = Except.ok rk) :
    parsePublicKey rp.tokenA = Except.ok rk.tokenA ∧
    parsePublicKey rp.tokenB = Except.ok rk.tokenB ∧ rk.dexId = rp.dexId := by
  rw [convertRoutePlan] at h
  split at h
  · cases h
  · rename_i a ha
    split at h
    · cases h
    · rename_i b hb
      injection h with h'
      subst h'
      exact ⟨ha, hb, rfl⟩

theorem convertKeyMeta_ok_inv (km : RawKeyMeta) (am : AccountMeta)
    (h : convertKeyMeta km = Except.ok am) :
    parsePublicKey km.pubkey = Except.ok am.pubkey ∧
    am.isSigner = km.isSigner ∧ am.isWritable = km.isWritable := by
  rw [convertKeyMeta] at h
  split at h
  · cases h
  · rename_i p hp
    injection h with h'
    subst h'
    exact ⟨hp, rfl, rfl⟩

theorem convertAPIInstruction_ok_inv (inst : RawInstruction) (ti : TransactionInstruction)
    (h : convertAPIInstruction inst = Except.ok ti) :
    mapME convertKeyMeta (inst.keys.getD []) = Except.ok ti.keys ∧
    parsePublicKey inst.programId = Except.ok ti.programId ∧ ti.data = inst.data := by
  rw [convertAPIInstruction] at h
  split at h
  · cases h
  · rename_i ks hks
    split at h
    · cases h
    · rename_i pid hpid
      injection h with h'
      subst h'
      exact ⟨hks, hpid, rfl⟩

theorem convertGroup_ok_inv (g : RawGroup) (cg : InstructionGroup)
    (h : convertGroup g = Except.ok cg) :
    mapME convertAPIInstruction (g.instructions.getD []) = Except.ok cg.instructions ∧
    mapME convertAPIInstruction (g.cleanupInstructions.getD []) = Except.ok cg.cleanupInstructions ∧
    cg.signers = g.signers.getD [] := by
  rw [convertGroup] at h
  split at h
  · cases h
  · rename_i ins hins
    split at h
    · cases h
    · rename_i cls hcls
      injection h with h'
      subst h'
      exact ⟨hins, hcls, rfl⟩

theorem convertToken_ok_inv (t : RawToken) (tk : Token)
    (h : convertToken t = Except.ok tk) :
    parsePublicKey t.address = Except.ok tk.address ∧ tk.name = t.name ∧
    tk.symbol = t.symbol ∧ tk.chainId = t.chainId ∧ tk.decimals = t.decimals ∧
    tk.logoURL = t.logoURL := by
  rw [convertToken] at h
  split at h
  · cases h
  · rename_i a ha
    injection h with h'
    subst h'
    exact ⟨ha, rfl, rfl, rfl, rfl, rfl⟩

theorem tokenList_ok_inv (st : String) (raw : List RawToken) (toks : List Token)
    (h : tokenList (HttpResponse.mk true st (some raw)) = Except.ok toks) :
    mapME convertToken raw = Except.ok toks :=
  h

/-- C3: for each of the four HTTP-backed methods (swapTx, swapIx, tokenList,
tokenPrice), a response with a non-success HTTP status makes the call fail
with an error whose message contains the response status text, and the call
fails the same way whatever the body is (in particular even when the body
would not parse), i.e. the error response body is never parsed. -/
theorem api_error_on_non_ok (st : String) (b1 b2 : Option BestSwapResponse)
    (b3 : Option (List RawToken)) (b4 : Option PriceBody) :
    swapTx (HttpResponse.mk false st b1) = Except.error (SdkError.apiError st) ∧
    swapIx (HttpResponse.mk false st b2) = Except.error (SdkError.apiError st) ∧
    tokenList (HttpResponse.mk false st b3) = Except.error (SdkError.apiError st) ∧
    tokenPrice (HttpResponse.mk false st b4) = Except.error (SdkError.apiError st) ∧
    jsIncludes (SdkError.message (SdkError.apiError st)) st = true :=
  ⟨rfl, rfl, rfl, rfl, jsIncludes_of_append "API Error: " st⟩

/-- C9: tokenPrice returns the response body's `price` field coerced by
`Number(...)`; in particular on the body with price `"1.2345"` it returns
the numeric value 1.2345. -/
theorem tokenPrice_coerces_price (st : String) (b : PriceBody) :
    tokenPrice (HttpResponse.mk true st (some b)) = Except.ok (jsNumber b.price) ∧
    tokenPrice (HttpResponse.mk true "OK" (some (PriceBody.mk (JsPrim.str "1.2345")))) =
      Except.ok (some (1.2345 : ℚ)) := by
  constructor
  · rfl
  · have h1 : tokenPrice (HttpResponse.mk true "OK" (some (PriceBody.mk (JsPrim.str "1.2345")))) =
        Except.ok (some ((1 : ℚ) + (2345 : ℚ) / 10 ^ (4 : Nat))) := rfl
    have h2 : ((1 : ℚ) + (2345 : ℚ) / 10 ^ (4 : Nat)) = (1.2345 : ℚ) := by norm_num
    rw [h1, h2]

/-- C10: unlike the defaulted array fields, `signers` has no empty-list
fallback: when it is absent from a successful response, swapTx throws
(`data.signers.map` on `undefined`) instead of returning a result with zero
signers. -/
theorem swapTx_fails_without_signers (st : String) (bo : BestSwapResponse)
    (h : bo.signers = none) :
    ∃ e, swapTx (HttpResponse.mk true st (some bo)) = Except.error e := by
  have h0 : swapTx (HttpResponse.mk true st (some bo)) = swapTxBody bo := rfl
  rw [h0]
  cases ht : bo.transaction with
  | none => exact ⟨SdkError.jsTypeError, by simp [swapTxBody, ht]⟩
  | some ts =>
    cases hl : mapME parsePublicKey (bo.lookUpAccounts.getD []) with
    | error e => exact ⟨e, by simp [swapTxBody, ht, hl]⟩
    | ok la =>
      cases hr : mapME convertRoutePlan (bo.routePlan.getD []) with
      | error e => exact ⟨e, by simp [swapTxBody, ht, hl, hr]⟩
      | ok rp => exact ⟨SdkError.jsTypeError, by simp [swapTxBody, ht, hl, hr, h]⟩

theorem swapTx_fails_without_signers_witness :
    ∃ e, swapTx (HttpResponse.mk true "OK" (some (BestSwapResponse.mk (some "")
      JsPrim.undef JsPrim.undef none none none none))) = Except.error e :=
  swapTx_fails_without_signers "OK" _ rfl

/-- C4: simulateTransaction raises the dedicated lock error exactly when the
outcome's error payload is present and its string form contains
"TooManyAccountLocks"; a present payload without the marker, and an absent
payload, both return the outcome unchanged without raising. -/
theorem simulateTransaction_raises_iff (v : SimValue) :
    ((∃ m, simulateTransaction v = Except.error (SdkError.tooManyAccountLocks m)) ↔
      (∃ e, v.err = some e ∧ jsIncludes e.jsToString "TooManyAccountLocks" = true)) ∧
    (∀ e, v.err = some e → jsIncludes e.jsToString "TooManyAccountLocks" = false →
      simulateTransaction v = Except.ok v) ∧
    (v.err = none → simulateTransaction v = Except.ok v) := by
  cases hv : v.err with
  | none =>
    refine ⟨⟨?_, ?_⟩, ?_, ?_⟩
    · rintro ⟨m, hm⟩
      rw [simulateTransaction, hv] at hm
      cases hm
    · rintro ⟨e, he, _⟩
      cases he
    · intro e he _
      cases he
    · intro _
      rw [simulateTransaction, hv]
  | some e =>
    by_cases hinc : jsIncludes e.jsToString "TooManyAccountLocks" = true
    · have htr : e.truthy = true := by
        cases e with
        | str s =>
          by_cases hs : s = ""
          · subst hs
            exact absurd hinc (by decide)
          · simp [JsErr.truthy, hs]
        | obj o => rfl
      have hrun : simulateTransaction v =
          Except.error (SdkError.tooManyAccountLocks tooManyLocksMessage) := by
        simp [simulateTransaction, hv, htr, handleSimulationError, hinc]
      refine ⟨⟨?_, ?_⟩, ?_, ?_⟩
      · intro _
        exact ⟨e, rfl, hinc⟩
      · intro _
        exact ⟨tooManyLocksMessage, hrun⟩
      · intro e' he' hinc'
        injection he' with he''
        subst he''
        exact absurd hinc (by simp [hinc'])
      · intro h0
        cases h0
    · have hf : jsIncludes e.jsToString "TooManyAccountLocks" = false := by
        simpa using hinc
      have hrun : simulateTransaction v = Except.ok v := by
        cases e with
        | str s =>
          by_cases hs : s = ""
          · subst hs
            simp [simulateTransaction, hv, JsErr.truthy]
          · simp [simulateTransaction, hv, JsErr.truthy, hs, handleSimulationError, hf]
        | obj o =>
          simp [simulateTransaction, hv, JsErr.truthy, handleSimulationError, hf]
      refine ⟨⟨?_, ?_⟩, ?_, ?_⟩
      · rintro ⟨m, hm⟩
        rw [hrun] at hm
        cases hm
      · rintro ⟨e', he', hinc'⟩
        injection he' with he''
        subst he''
        exact absurd hinc' hinc
      · intro _ _ _
        exact hrun
      · intro h0
        cases h0

theorem simulateTransaction_raises_iff_witness :
    (∃ m, simulateTransaction
        (SimValue.mk (some (JsErr.str "custom program error: TooManyAccountLocks")) []) =
      Except.error (SdkError.tooManyAccountLocks m)) ∧
    simulateTransaction (SimValue.mk (some (JsErr.obj "InstructionError")) ["log entry"]) =
      Except.ok (SimValue.mk (some (JsErr.obj "InstructionError")) ["log entry"]) ∧
    simulateTransaction (SimValue.mk none ["log entry"]) =
      Except.ok (SimValue.mk none ["log entry"]) := by
  refine ⟨?_, ?_, ?_⟩
  · exact (simulateTransaction_raises_iff _).1.mpr ⟨_, rfl, by decide⟩
  · exact (simulateTransaction_raises_iff _).2.1 _ rfl (by decide)
  · exact (simulateTransaction_raises_iff _).2.2 rfl

/-- C2: for a successful response whose fields process (transaction present,
addresses parse, every one of the N signer secrets decodes), swapTx returns a
result carrying exactly the N decoded keypairs, in listed order, all applied
to the transaction before the result is returned (no partial-signature
state). -/
theorem swapTx_applies_all_signers (st txStr : String) (bo : BestSwapResponse)
    (l : List String) (ks : List Keypair) (la : List PubKey) (rps : List RoutePlanKeys)
    (htx : bo.transaction = some txStr)
    (hsg : bo.signers = some l)
    (hla : mapME parsePublicKey (bo.lookUpAccounts.getD []) = Except.ok la)
    (hrp : mapME convertRoutePlan (bo.routePlan.getD []) = Except.ok rps)
    (hks : mapME decodeSigner l = Except.ok ks) :
    ∃ r, swapTx (HttpResponse.mk true st (some bo)) = Except.ok r ∧
      r.signers = ks ∧ r.signers.length = l.length ∧
      r.transaction.signedWith = r.signers ∧
      List.Forall₂ (fun s kp => decodeSigner s = Except.ok kp) l r.signers := by
  have h0 : swapTx (HttpResponse.mk true st (some bo)) = swapTxBody bo := rfl
  refine ⟨SwapTxResult.mk ((VersionedTx.deserialize (bufferFromBase64 txStr)).sign ks)
      (jsNumber bo.amountOut) (jsNumber bo.amountOutUi) rps la ks, ?_, rfl, ?_, rfl, ?_⟩
  · rw [h0]
    simp only [swapTxBody, htx, hla, hrp, hsg, hks]
  · exact mapME_ok_length _ _ _ hks
  · exact (mapME_ok_iff _ _ _).mp hks

theorem swapTx_applies_all_signers_witness :
    ∃ r, swapTx (HttpResponse.mk true "OK" (some (BestSwapResponse.mk (some "")
        JsPrim.undef JsPrim.undef (some []) (some [])
        (some [String.mk (List.replicate 64 '1')]) none))) = Except.ok r ∧
      r.signers = [Keypair.mk (List.replicate 64 0)] ∧
      r.signers.length = [String.mk (List.replicate 64 '1')].length ∧
      r.transaction.signedWith = r.signers ∧
      List.Forall₂ (fun s kp => decodeSigner s = Except.ok kp)
        [String.mk (List.replicate 64 '1')] r.signers := by
  obtain ⟨r, h1, h2, h3, h4, h5⟩ := swapTx_applies_all_signers "OK" ""
    (BestSwapResponse.mk (some "") JsPrim.undef JsPrim.undef (some []) (some [])
      (some [String.mk (List.replicate 64 '1')]) none)
    [String.mk (List.replicate 64 '1')] [Keypair.mk (List.replicate 64 0)] [] []
    rfl rfl rfl rfl (by decide)
  exact ⟨r, h1, h2, h3, h4, h5⟩

/-- C5: every address-like string received from the wire (lookup accounts and
route-plan tokens in swapTx and swapIx, instruction keys and program ids in
swapIx, token addresses in tokenList) must parse as a valid key for the call
to return a result; a successful call additionally retains one converted
entry per wire entry, so no failing field is ever silently dropped. -/
theorem wire_addresses_must_parse
    (st1 st2 st3 : String) (b1 b2 : BestSwapResponse) (raw : List RawToken)
    (r1 : SwapTxResult) (r2 : SwapIxResult) (toks : List Token)
    (h1 : swapTx (HttpResponse.mk true st1 (some b1)) = Except.ok r1)
    (h2 : swapIx (HttpResponse.mk true st2 (some b2)) = Except.ok r2)
    (h3 : tokenList (HttpResponse.mk true st3 (some raw)) = Except.ok toks) :
    (∀ a ∈ b1.lookUpAccounts.getD [], ∃ k, parsePublicKey a = Except.ok k) ∧
    (∀ rp ∈ b1.routePlan.getD [], (∃ k, parsePublicKey rp.tokenA = Except.ok k) ∧
      (∃ k, parsePublicKey rp.tokenB = Except.ok k)) ∧
    (∀ a ∈ b2.lookUpAccounts.getD [], ∃ k, parsePublicKey a = Except.ok k) ∧
    (∀ rp ∈ b2.routePlan.getD [], (∃ k, parsePublicKey rp.tokenA = Except.ok k) ∧
      (∃ k, parsePublicKey rp.tokenB = Except.ok k)) ∧
    (∀ g ∈ b2.inXs.getD [], ∀ inst ∈ g.instructions.getD [] ++ g.cleanupInstructions.getD [],
      (∀ km ∈ inst.keys.getD [], ∃ k, parsePublicKey km.pubkey = Except.ok k) ∧
      (∃ k, parsePublicKey inst.programId = Except.ok k)) ∧
    (∀ t ∈ raw, ∃ k, parsePublicKey t.address = Except.ok k) ∧
    r1.lookupAccounts.length = (b1.lookUpAccounts.getD []).length ∧
    r2.lookupAccounts.length = (b2.lookUpAccounts.getD []).length ∧
    toks.length = raw.length := by
  obtain ⟨ts, l, hts, hsg, hla1, hrp1, hks1, _, _, _⟩ := swapTx_ok_inv st1 b1 r1 h1
  obtain ⟨hla2, hrp2, hig2, _, _, _⟩ := swapIx_ok_inv st2 b2 r2 h2
  have h3' := tokenList_ok_inv st3 raw toks h3
  refine ⟨?_, ?_, ?_, ?_, ?_, ?_, ?_, ?_, ?_⟩
  · intro a ha
    exact mapME_ok_of_mem _ _ _ hla1 a ha
  · intro rp hrp
    obtain ⟨rk, hrk⟩ := mapME_ok_of_mem _ _ _ hrp1 rp hrp
    obtain ⟨hA, hB, _⟩ := convertRoutePlan_ok_inv rp rk hrk
    exact ⟨⟨_, hA⟩, ⟨_, hB⟩⟩
  · intro a ha
    exact mapME_ok_of_mem _ _ _ hla2 a ha
  · intro rp hrp
    obtain ⟨rk, hrk⟩ := mapME_ok_of_mem _ _ _ hrp2 rp hrp
    obtain ⟨hA, hB, _⟩ := convertRoutePlan_ok_inv rp rk hrk
    exact ⟨⟨_, hA⟩, ⟨_, hB⟩⟩
  · intro g hg inst hinst
    obtain ⟨cg, hcg⟩ := mapME_ok_of_mem _ _ _ hig2 g hg
    obtain ⟨hins, hcls, _⟩ := convertGroup_ok_inv g cg hcg
    rcases List.mem_append.mp hinst with hi | hi
    · obtain ⟨ti, hti⟩ := mapME_ok_of_mem _ _ _ hins inst hi
      obtain ⟨hkeys, hpid, _⟩ := convertAPIInstruction_ok_inv inst ti hti
      constructor
      · intro km hkm
        obtain ⟨am, ham⟩ := mapME_ok_of_mem _ _ _ hkeys km hkm
        obtain ⟨hp, _, _⟩ := convertKeyMeta_ok_inv km am ham
        exact ⟨_, hp⟩
      · exact ⟨_, hpid⟩
    · obtain ⟨ti, hti⟩ := mapME_ok_of_mem _ _ _ hcls inst hi
      obtain ⟨hkeys, hpid, _⟩ := convertAPIInstruction_ok_inv inst ti hti
      constructor
      · intro km hkm
        obtain ⟨am, ham⟩ := mapME_ok_of_mem _ _ _ hkeys km hkm
        obtain ⟨hp, _, _⟩ := convertKeyMeta_ok_inv km am ham
        exact ⟨_, hp⟩
      · exact ⟨_, hpid⟩
  · intro t ht
    obtain ⟨tk, htk⟩ := mapME_ok_of_mem _ _ _ h3' t ht
    obtain ⟨hp, _⟩ := convertToken_ok_inv t tk htk
    exact ⟨_, hp⟩
  · exact mapME_ok_length _ _ _ hla1
  · exact mapME_ok_length _ _ _ hla2
  · exact mapME_ok_length _ _ _ h3'

theorem wire_addresses_must_parse_witness :
    (∀ a ∈ (some [String.mk (List.replicate 32 '1')] : Option (List String)).getD [],
      ∃ k, parsePublicKey a = Except.ok k) ∧
    ([Token.mk "Sol" "SOL" (PubKey.mk (List.replicate 32 0)) 101 9 "u"] : List Token).length =
      ([RawToken.mk "Sol" "SOL" (String.mk (List.replicate 32 '1')) 101 9 "u"] : List RawToken).length := by
  have h := wire_addresses_must_parse "OK" "OK" "OK"
    (BestSwapResponse.mk (some "") JsPrim.undef JsPrim.undef
      (some [RoutePlanEntry.mk (String.mk (List.replicate 32 '1'))
        (String.mk (List.replicate 32 '1')) "INVARIANT"])
      (some [String.mk (List.replicate 32 '1')]) (some []) none)
    (BestSwapResponse.mk (some "") JsPrim.undef JsPrim.undef
      (some []) (some [])
      (some [])
      (some [RawGroup.mk
        (some [RawInstruction.mk
          (some [RawKeyMeta.mk (String.mk (List.replicate 32 '1')) true false])
          (String.mk (List.replicate 32 '1')) [7]])
        (some []) (some ["s"])]))
    [RawToken.mk "Sol" "SOL" (String.mk (List.replicate 32 '1')) 101 9 "u"]
    (SwapTxResult.mk (VersionedTx.mk [] []) none none
      [RoutePlanKeys.mk (PubKey.mk (List.replicate 32 0)) (PubKey.mk (List.replicate 32 0))
        "INVARIANT"]
      [PubKey.mk (List.replicate 32 0)] [])
    (SwapIxResult.mk
      [InstructionGroup.mk
        [TransactionInstruction.mk [AccountMeta.mk (PubKey.mk (List.replicate 32 0)) true false]
          (PubKey.mk (List.replicate 32 0)) [7]]
        [] ["s"]]
      none none [] [] (some []))
    [Token.mk "Sol" "SOL" (PubKey.mk (List.replicate 32 0)) 101 9 "u"]
    (by decide) (by decide) (by decide)
  exact ⟨h.1, h.2.2.2.2.2.2.2.2⟩

/-- C6: on a successful response carrying K instruction groups, swapIx
returns exactly K converted groups; pairwise, each converted group keeps the
instruction list, cleanup list and signers list of its raw group (lengths
equal, every instruction being the conversion of the raw instruction at the
same position, nothing dropped or duplicated, signers passed through). -/
theorem swapIx_structural_equiv (st : String) (bo : BestSwapResponse)
    (gs : List RawGroup) (r : SwapIxResult)
    (hg : bo.inXs = some gs)
    (h : swapIx (HttpResponse.mk true st (some bo)) = Except.ok r) :
    r.instructionGroups.length = gs.length ∧
    List.Forall₂ (fun (g : RawGroup) (cg : InstructionGroup) =>
      cg.instructions.length = (g.instructions.getD []).length ∧
      cg.cleanupInstructions.length = (g.cleanupInstructions.getD []).length ∧
      cg.signers = g.signers.getD [] ∧
      List.Forall₂ (fun inst ti => convertAPIInstruction inst = Except.ok ti)
        (g.instructions.getD []) cg.instructions ∧
      List.Forall₂ (fun inst ti => convertAPIInstruction inst = Except.ok ti)
        (g.cleanupInstructions.getD []) cg.cleanupInstructions) gs r.instructionGroups := by
  obtain ⟨_, _, hig, _, _, _⟩ := swapIx_ok_inv st bo r h
  rw [hg] at hig
  have hig' : mapME convertGroup gs = Except.ok r.instructionGroups := hig
  constructor
  · exact (mapME_ok_length _ _ _ hig').symm ▸ rfl
  · refine List.Forall₂.imp ?_ ((mapME_ok_iff _ _ _).mp hig')
    intro g cg hcg
    obtain ⟨hins, hcls, hsg⟩ := convertGroup_ok_inv g cg hcg
    exact ⟨mapME_ok_length _ _ _ hins, mapME_ok_length _ _ _ hcls, hsg,
      (mapME_ok_iff _ _ _).mp hins, (mapME_ok_iff _ _ _).mp hcls⟩

theorem swapIx_structural_equiv_witness :
    ([InstructionGroup.mk
        [TransactionInstruction.mk [AccountMeta.mk (PubKey.mk (List.replicate 32 0)) true false]
          (PubKey.mk (List.replicate 32 0)) [7]]
        [] ["s"]] : List InstructionGroup).length =
      ([RawGroup.mk
        (some [RawInstruction.mk
          (some [RawKeyMeta.mk (String.mk (List.replicate 32 '1')) true false])
          (String.mk (List.replicate 32 '1')) [7]])
        (some []) (some ["s"])] : List RawGroup).length := by
  have h := swapIx_structural_equiv "OK"
    (BestSwapResponse.mk (some "") JsPrim.undef JsPrim.undef (some []) (some []) (some [])
      (some [RawGroup.mk
        (some [RawInstruction.mk
          (some [RawKeyMeta.mk (String.mk (List.replicate 32 '1')) true false])
          (String.mk (List.replicate 32 '1')) [7]])
        (some []) (some ["s"])]))
    [RawGroup.mk
      (some [RawInstruction.mk
        (some [RawKeyMeta.mk (String.mk (List.replicate 32 '1')) true false])
        (String.mk (List.replicate 32 '1')) [7]])
      (some []) (some ["s"])]
    (SwapIxResult.mk
      [InstructionGroup.mk
        [TransactionInstruction.mk [AccountMeta.mk (PubKey.mk (List.replicate 32 0)) true false]
          (PubKey.mk (List.replicate 32 0)) [7]]
        [] ["s"]]
      none none [] [] (some []))
    rfl (by decide)
  exact h.1

/-- C7: on a successful /tokenList response of M descriptors, tokenList
returns exactly M entries; pairwise, the address field is the parsed typed
key of the raw address string, every other field is unchanged, and the
parsed address round-trips: its base58 rendering (what `toString` returns)
equals the original wire string. -/
theorem tokenList_preserves_and_roundtrips (st : String) (raw : List RawToken)
    (toks : List Token)
    (h : tokenList (HttpResponse.mk true st (some raw)) = Except.ok toks) :
    toks.length = raw.length ∧
    List.Forall₂ (fun (t : RawToken) (tk : Token) =>
      parsePublicKey t.address = Except.ok tk.address ∧
      tk.name = t.name ∧ tk.symbol = t.symbol ∧ tk.chainId = t.chainId ∧
      tk.decimals = t.decimals ∧ tk.logoURL = t.logoURL ∧
      tk.address.toBase58 = t.address) raw toks := by
  have h' := tokenList_ok_inv st raw toks h
  refine ⟨mapME_ok_length _ _ _ h', ?_⟩
  refine List.Forall₂.imp ?_ ((mapME_ok_iff _ _ _).mp h')
  intro t tk htk
  obtain ⟨hp, hn, hs, hc, hd, hl⟩ := convertToken_ok_inv t tk htk
  exact ⟨hp, hn, hs, hc, hd, hl, parsePublicKey_toBase58 _ _ hp⟩

theorem tokenList_preserves_and_roundtrips_witness :
    ([Token.mk "Sol" "SOL" (PubKey.mk (List.replicate 32 0)) 101 9 "u"] : List Token).length =
      ([RawToken.mk "Sol" "SOL" (String.mk (List.replicate 32 '1')) 101 9 "u"] :
        List RawToken).length ∧
    List.Forall₂ (fun (t : RawToken) (tk : Token) =>
      parsePublicKey t.address = Except.ok tk.address ∧
      tk.name = t.name ∧ tk.symbol = t.symbol ∧ tk.chainId = t.chainId ∧
      tk.decimals = t.decimals ∧ tk.logoURL = t.logoURL ∧
      tk.address.toBase58 = t.address)
      [RawToken.mk "Sol" "SOL" (String.mk (List.replicate 32 '1')) 101 9 "u"]
      [Token.mk "Sol" "SOL" (PubKey.mk (List.replicate 32 0)) 101 9 "u"] :=
  tokenList_preserves_and_roundtrips "OK"
    [RawToken.mk "Sol" "SOL" (String.mk (List.replicate 32 '1')) 101 9 "u"]
    [Token.mk "Sol" "SOL" (PubKey.mk (List.replicate 32 0)) 101 9 "u"]
    (by decide)

/-- C8: in swapTx and swapIx a response with `lookUpAccounts`, `routePlan`
or `inXs` absent behaves exactly as the same response with that field set to
the empty list (so the call succeeds whenever the other fields permit), and
any result then carries the empty list in the corresponding field. -/
theorem missing_arrays_default_empty (st : String) (bo : BestSwapResponse) :
    swapTx (HttpResponse.mk true st (some (setLookUpAccounts bo none))) =
      swapTx (HttpResponse.mk true st (some (setLookUpAccounts bo (some [])))) ∧
    swapTx (HttpResponse.mk true st (some (setRoutePlan bo none))) =
      swapTx (HttpResponse.mk true st (some (setRoutePlan bo (some [])))) ∧
    swapIx (HttpResponse.mk true st (some (setLookUpAccounts bo none))) =
      swapIx (HttpResponse.mk true st (some (setLookUpAccounts bo (some [])))) ∧
    swapIx (HttpResponse.mk true st (some (setRoutePlan bo none))) =
      swapIx (HttpResponse.mk true st (some (setRoutePlan bo (some [])))) ∧
    swapIx (HttpResponse.mk true st (some (setInXs bo none))) =
      swapIx (HttpResponse.mk true st (some (setInXs bo (some [])))) ∧
    (∀ r, swapTx (HttpResponse.mk true st (some (setLookUpAccounts bo none))) = Except.ok r →
      r.lookupAccounts = []) ∧
    (∀ r, swapTx (HttpResponse.mk true st (some (setRoutePlan bo none))) = Except.ok r →
      r.routePlan = []) ∧
    (∀ r, swapIx (HttpResponse.mk true st (some (setLookUpAccounts bo none))) = Except.ok r →
      r.lookupAccounts = []) ∧
    (∀ r, swapIx (HttpResponse.mk true st (some (setRoutePlan bo none))) = Except.ok r →
      r.routePlan = []) ∧
    (∀ r, swapIx (HttpResponse.mk true st (some (setInXs bo none))) = Except.ok r →
      r.instructionGroups = []) := by
  refine ⟨rfl, rfl, rfl, rfl, rfl, ?_, ?_, ?_, ?_, ?_⟩
  · intro r hr
    obtain ⟨_, _, _, _, hla, _, _, _, _, _⟩ :=
      swapTx_ok_inv st (setLookUpAccounts bo none) r hr
    have hla' : Except.ok ([] : List PubKey) = Except.ok r.lookupAccounts := hla
    injection hla' with h'
    exact h'.symm
  · intro r hr
    obtain ⟨_, _, _, _, _, hrp, _, _, _, _⟩ :=
      swapTx_ok_inv st (setRoutePlan bo none) r hr
    have hrp' : Except.ok ([] : List RoutePlanKeys) = Except.ok r.routePlan := hrp
    injection hrp' with h'
    exact h'.symm
  · intro r hr
    obtain ⟨hla, _, _, _, _, _⟩ := swapIx_ok_inv st (setLookUpAccounts bo none) r hr
    have hla' : Except.ok ([] : List PubKey) = Except.ok r.lookupAccounts := hla
    injection hla' with h'
    exact h'.symm
  · intro r hr
    obtain ⟨_, hrp, _, _, _, _⟩ := swapIx_ok_inv st (setRoutePlan bo none) r hr
    have hrp' : Except.ok ([] : List RoutePlanKeys) = Except.ok r.routePlan := hrp
    injection hrp' with h'
    exact h'.symm
  · intro r hr
    obtain ⟨_, _, hig, _, _, _⟩ := swapIx_ok_inv st (setInXs bo none) r hr
    have hig' : Except.ok ([] : List InstructionGroup) = Except.ok r.instructionGroups := hig
    injection hig' with h'
    exact h'.symm

theorem missing_arrays_default_empty_witness :
    swapTx (HttpResponse.mk true "OK" (some (setLookUpAccounts
        (BestSwapResponse.mk (some "") JsPrim.undef JsPrim.undef (some []) (some [])
          (some []) none) none))) =
      swapTx (HttpResponse.mk true "OK" (some (setLookUpAccounts
        (BestSwapResponse.mk (some "") JsPrim.undef JsPrim.undef (some []) (some [])
          (some []) none) (some [])))) ∧
    (SwapTxResult.mk (VersionedTx.mk [] []) none none [] [] []).lookupAccounts = [] := by
  constructor
  · exact (missing_arrays_default_empty "OK"
      (BestSwapResponse.mk (some "") JsPrim.undef JsPrim.undef (some []) (some [])
        (some []) none)).1
  · exact (missing_arrays_default_empty "OK"
      (BestSwapResponse.mk (some "") JsPrim.undef JsPrim.undef (some []) (some [])
        (some []) none)).2.2.2.2.2.1 _ (by decide)

/-- C1, code exhibit: the source decodes each `signers` entry with
`bs58.decode` (base58), not base64 as its own comments and the spec state:
on a response whose only signer entry is `"0000"` — a valid base64 string,
decoding to the bytes `[211, 77, 52]` — swapTx throws from the base58
decoder instead of producing a keypair. -/
theorem swapTx_decodes_signers_base58_not_base64 :
    swapTx (HttpResponse.mk true "OK" (some (BestSwapResponse.mk (some "")
        JsPrim.undef JsPrim.undef (some []) (some []) (some ["0000"]) none))) =
      Except.error (SdkError.invalidBase58 "0000") ∧
    decodeBase64Spec "0000" = some [211, 77, 52] := by
  constructor
  · decide
  · decide
